import Mathlib

/-!
Verification of the face-recognition attendance system (the repository's
`main.cpp` and its older variant `eye detection.cpp`).  The C++
`AttendanceSystem` class is shallowly embedded: the attendance ledger, the
cooldown table and the per-frame verification loop become pure Lean
functions over explicit state.  `steady_clock` instants are modelled as
natural numbers of milliseconds, pixel intensities and distances as
rationals, and fallible file I/O as explicit boolean/`Except` parameters.
-/

deriving instance DecidableEq for Except

/-- An attendance record as appended to `attendance.csv`: name, date and
weekday label (`file << name << "," << current_date << "," << day`). -/
abbrev AttRec := String × String × String

/-- The state of `AttendanceSystem` that `markAttendance` reads and writes:
`attendance_set` is the in-memory set of names already marked today,
`last_mark_time` the cooldown tracker (most recent entry first, lookup takes
the first hit), and `ledger` the records appended to the attendance file
during the current run. -/
structure SysState where
  attendance_set : List String
  last_mark_time : List (String × ℕ)
  ledger : List AttRec
  deriving DecidableEq

/-- `unordered_set<string>::insert`: add `name` when absent.  Only
membership is observable, so a duplicate-free list models the set. -/
def insertSet (s : List String) (name : String) : List String :=
  if name ∈ s then s else name :: s

/-- One line of `attendance.csv` as parsed by `loadAttendance` in
`main.cpp`: the line must contain at least two commas (`c1`, `c2` both
found), and the name and date are the first two comma-separated fields
(`substr(0, c1)` and `substr(c1+1, c2-c1-1)`); otherwise the line is
skipped. -/
def parseLedgerLine (line : String) : Option (String × String) :=
  let cs := line.data
  match cs.findIdx? (fun c => c = ',') with
  | none => none
  | some c1 =>
      match (cs.drop (c1 + 1)).findIdx? (fun c => c = ',') with
      | none => none
      | some d =>
          some (String.mk (cs.take c1), String.mk ((cs.drop (c1 + 1)).take d))

/-- `AttendanceSystem::loadAttendance` of `main.cpp`: scan every line,
skip malformed ones, and collect the names whose date field equals
`current_date`. -/
def loadAttendance (lines : List String) (current_date : String) : List String :=
  lines.foldl
    (fun s line =>
      match parseLedgerLine line with
      | some nd => if nd.2 = current_date then insertSet s nd.1 else s
      | none => s)
    []

/-- The cooldown guard at the top of `markAttendance`:
`last_mark_time.count(name) && (now - last_mark_time[name]) < mark_cooldown`
with `mark_cooldown` equal to 10 seconds, i.e. 10000 ms.  Natural
subtraction agrees with the signed `chrono` comparison: a clock value
before the stored one yields 0 < 10000 in both readings. -/
def cooldownBlocked (s : SysState) (name : String) (now : ℕ) : Bool :=
  match s.last_mark_time.lookup name with
  | some t => now - t < 10000
  | none => false

/-- Body of `markAttendance` past the cooldown guard: store the attempt
time; if the name is already in today's set, print and return; otherwise
insert it and append one record to the attendance file.  `fileOk` models
whether the `ofstream` opened. -/
def markCore (cd day : String) (s : SysState) (name : String) (now : ℕ) (fileOk : Bool) :
    SysState :=
  let s1 := { s with last_mark_time := (name, now) :: s.last_mark_time }
  if name ∈ s1.attendance_set then s1
  else
    let s2 := { s1 with attendance_set := insertSet s1.attendance_set name }
    if fileOk then { s2 with ledger := s2.ledger ++ [(name, cd, day)] } else s2

/-- `AttendanceSystem::markAttendance` of `main.cpp`, one call at
steady-clock instant `now` (milliseconds). -/
def markAttendance (cd day : String) (s : SysState) (name : String) (now : ℕ) (fileOk : Bool) :
    SysState :=
  if cooldownBlocked s name now then s else markCore cd day s name now fileOk

/-- A sequence of `markAttendance` calls performed during one run, each
given by (name, instant, file-opened). -/
def runMarks (cd day : String) (s : SysState) (inputs : List (String × ℕ × Bool)) : SysState :=
  inputs.foldl (fun s i => markAttendance cd day s i.1 i.2.1 i.2.2) s

theorem mem_insertSet_self (s : List String) (n : String) : n ∈ insertSet s n := by
  unfold insertSet; split <;> simp [*]

theorem mem_insertSet_of_mem (s : List String) (a n : String) (h : a ∈ s) :
    a ∈ insertSet s n := by
  unfold insertSet; split <;> simp [h]

/-- Run invariant for the records appended during one run: no two appended
records share (name, date), every appended name is in the in-memory set,
and every appended record carries the run's date. -/
def LedgerInv (cd : String) (s : SysState) : Prop :=
  s.ledger.Pairwise (fun r r' => r.1 ≠ r'.1 ∨ r.2.1 ≠ r'.2.1) ∧
  ∀ r ∈ s.ledger, r.1 ∈ s.attendance_set ∧ r.2.1 = cd

theorem markAttendance_inv (cd day : String) (s : SysState) (name : String) (now : ℕ)
    (fileOk : Bool) (h : LedgerInv cd s) :
    LedgerInv cd (markAttendance cd day s name now fileOk) := by
  unfold markAttendance
  split
  · exact h
  · unfold markCore
    by_cases hm : name ∈ s.attendance_set
    · simpa [hm] using h
    · by_cases hf : fileOk
      · simp only [hm, if_neg, if_false, hf, if_true]
        constructor
        · refine List.pairwise_append.mpr ⟨h.1, by simp, ?_⟩
          intro r hr r' hr'
          simp only [List.mem_singleton] at hr'
          subst hr'
          refine Or.inl (fun hEq => hm ?_)
          rw [show name = r.1 from hEq.symm]
          exact (h.2 r hr).1
        · intro r hr
          rcases List.mem_append.mp hr with hr | hr
          · exact ⟨mem_insertSet_of_mem _ _ _ (h.2 r hr).1, (h.2 r hr).2⟩
          · simp only [List.mem_singleton] at hr
            subst hr
            exact ⟨mem_insertSet_self _ _, rfl⟩
      · simp only [hm, if_neg, if_false, hf]
        exact ⟨h.1, fun r hr => ⟨mem_insertSet_of_mem _ _ _ (h.2 r hr).1, (h.2 r hr).2⟩⟩

theorem runMarks_inv (cd day : String) (inputs : List (String × ℕ × Bool)) :
    ∀ s : SysState, LedgerInv cd s → LedgerInv cd (runMarks cd day s inputs) := by
  induction inputs with
  | nil => intro s h; exact h
  | cons i rest ih =>
      intro s h
      exact ih _ (markAttendance_inv cd day s i.1 i.2.1 i.2.2 h)

/-- Claim C1: within one run whose today-set was initialized by
`loadAttendance`, no two records appended by any sequence of
`markAttendance` calls share the same (name, date) pair; moreover a single
`markAttendance` call either leaves the file untouched or appends exactly
one record, and it appends only when the name was absent from the today-set
and inserts the name into that set in the same call. -/
theorem c1_ledger_uniqueness :
    ∀ (lines : List String) (cd day : String) (inputs : List (String × ℕ × Bool)),
      (runMarks cd day ⟨loadAttendance lines cd, [], []⟩ inputs).ledger.Pairwise
        (fun r r' => r.1 ≠ r'.1 ∨ r.2.1 ≠ r'.2.1) ∧
      ∀ (s : SysState) (name : String) (now : ℕ) (fileOk : Bool),
        (markAttendance cd day s name now fileOk).ledger = s.ledger ∨
        name ∉ s.attendance_set ∧
          name ∈ (markAttendance cd day s name now fileOk).attendance_set ∧
          (markAttendance cd day s name now fileOk).ledger = s.ledger ++ [(name, cd, day)] := by
  intro lines cd day inputs
  constructor
  · exact (runMarks_inv cd day inputs ⟨loadAttendance lines cd, [], []⟩
      ⟨List.Pairwise.nil, by simp⟩).1
  · intro s name now fileOk
    unfold markAttendance
    split
    · exact Or.inl rfl
    · unfold markCore
      by_cases hm : name ∈ s.attendance_set
      · simp [hm]
      · by_cases hf : fileOk
        · exact Or.inr ⟨hm, by simp [hm, hf, mem_insertSet_self], by simp [hm, hf]⟩
        · exact Or.inl (by simp [hm, hf])

/-- Claim C4 counterexample: with an empty today-set, calling
`markAttendance` for "Alice" while the attendance file fails to open leaves
the in-memory set changed (it now contains "Alice") although no record was
appended — the code inserts into the set before attempting the append, so
on append failure the set is not left unchanged as the claim requires. -/
theorem c4_counterexample :
    (markAttendance "2026-10-11" "Sat" ⟨[], [], []⟩ "Alice" 0 false).attendance_set
      = ["Alice"] ∧
    (markAttendance "2026-10-11" "Sat" ⟨[], [], []⟩ "Alice" 0 false).ledger = [] ∧
    (["Alice"] : List String) ≠ [] := by
  refine ⟨?_, ?_, by simp⟩ <;> rfl

/-- Claim C4 as amended: for a name absent from the today-set and not
cooldown-blocked, `markAttendance` inserts the name into the in-memory set
and then attempts the append; when the file opens it appends exactly the
record (name, today, weekday), and when the file fails to open it appends
nothing while the in-memory set nevertheless retains the name (the set can
over-approximate the durable file, not the reverse). -/
theorem c4_commit_durability :
    ∀ (cd day name : String) (s : SysState) (now : ℕ),
      cooldownBlocked s name now = false →
      name ∉ s.attendance_set →
      ((markAttendance cd day s name now true).ledger = s.ledger ++ [(name, cd, day)] ∧
        name ∈ (markAttendance cd day s name now true).attendance_set) ∧
      ((markAttendance cd day s name now false).ledger = s.ledger ∧
        name ∈ (markAttendance cd day s name now false).attendance_set) := by
  intro cd day name s now hcb hm
  unfold markAttendance markCore
  simp [hcb, hm, mem_insertSet_self]

/-- Witness for the amended C4 at a concrete input. -/
theorem c4_witness :
    (markAttendance "2026-10-11" "Sat" ⟨[], [], []⟩ "Alice" 0 true).ledger
      = [] ++ [("Alice", "2026-10-11", "Sat")] ∧
    "Alice" ∈ (markAttendance "2026-10-11" "Sat" ⟨[], [], []⟩ "Alice" 0 false).attendance_set :=
  ⟨((c4_commit_durability "2026-10-11" "Sat" "Alice" ⟨[], [], []⟩ 0 (by decide)
      (by simp)).1).1,
   ((c4_commit_durability "2026-10-11" "Sat" "Alice" ⟨[], [], []⟩ 0 (by decide)
      (by simp)).2).2⟩

/-- `DBL_MAX`, the initial value of `min_mse` in `recognizeFace` of
`main.cpp`, as an exact rational: (2 - 2^-52) * 2^1023. -/
def dblMax : ℚ := 2 ^ 1024 - 2 ^ 971

/-- Per-pixel absolute difference of two CV_8U intensities, as computed by
`cv::absdiff` on 8-bit images. -/
def absDiffPix (a b : ℕ) : ℕ := max a b - min a b

/-- Sum over pixels of `diff.mul(diff)` as `main.cpp` actually computes
it: `diff` is a CV_8U matrix, and `Mat::mul` stores each per-pixel product
through `saturate_cast<uchar>`, clamping it at 255 — so every term is
`min(d*d, 255)`; `cv::sum` then adds the saturated bytes exactly. -/
def satSqDiffSum : List ℕ → List ℕ → ℕ
  | a :: as, b :: bs => min (absDiffPix a b * absDiffPix a b) 255 + satSqDiffSum as bs
  | _, _ => 0

/-- Modelled from the spec: the distance numerator the spec describes for
the matcher — the exact sum of squared per-pixel differences, with no
8-bit saturation.  Kept only to state the claims' "mean of squared
intensity differences"; the code computes `satSqDiffSum` instead. -/
def sqDiffSum : List ℕ → List ℕ → ℕ
  | a :: as, b :: bs => absDiffPix a b * absDiffPix a b + sqDiffSum as bs
  | _, _ => 0

/-- Sum over pixels of the absolute difference, as computed by
`absdiff(face_gray, known_gray, diff)` followed by `sum(diff)[0]` in
`eye detection.cpp` (no squaring; `absdiff` on CV_8U is exact). -/
def absDiffSum : List ℕ → List ℕ → ℕ
  | a :: as, b :: bs => absDiffPix a b + absDiffSum as bs
  | _, _ => 0

/-- Distance of `main.cpp`: `sum(diff.mul(diff))[0] / (200.0*200.0)`, with
the CV_8U saturation of `mul`; the sum of saturated bytes is exact and the
division is modelled exactly in the rationals. -/
def mseMain (a b : List ℕ) : ℚ := (satSqDiffSum a b : ℚ) / (200 * 200)

/-- Distance of `eye detection.cpp`: `sum(diff)[0] / (100*100)`. -/
def mseEye (a b : List ℕ) : ℚ := (absDiffSum a b : ℚ) / (100 * 100)

/-- The linear scan shared by both `recognizeFace` variants: walk the
gallery in iteration order carrying `(best_name, min_mse)`, replacing the
accumulator whenever `mse < min_mse && mse < threshold`. -/
def scanFaces (dist : List ℕ → List ℕ → ℚ) (thr : ℚ) (face : List ℕ) :
    List (String × List ℕ) → String × ℚ → String × ℚ
  | [], acc => acc
  | kv :: rest, acc =>
      scanFaces dist thr face rest
        (if dist face kv.2 < acc.2 ∧ dist face kv.2 < thr then (kv.1, dist face kv.2) else acc)

/-- `AttendanceSystem::recognizeFace` of `main.cpp`, generalized over the
rejection threshold that the source hard-codes as `1500.0`; the accumulator
starts at `("Unknown", DBL_MAX)`. -/
def recognizeFaceT (thr : ℚ) (face : List ℕ) (known_faces : List (String × List ℕ)) : String :=
  (scanFaces mseMain thr face known_faces ("Unknown", dblMax)).1

/-- `AttendanceSystem::recognizeFace` of `main.cpp` with its hard-coded
threshold `1500.0`. -/
def recognizeFace (face : List ℕ) (known_faces : List (String × List ℕ)) : String :=
  recognizeFaceT 1500 face known_faces

/-- Initial `min_diff = 1e9` of `recognizeFace` in `eye detection.cpp`. -/
def eyeInitMin : ℚ := 1000000000

/-- `AttendanceSystem::recognizeFace` of `eye detection.cpp`: same scan
with the absolute-difference distance, threshold `1000.0` and initial
minimum `1e9`. -/
def recognizeFaceEye (face : List ℕ) (gallery : List (String × List ℕ)) : String :=
  (scanFaces mseEye 1000 face gallery ("Unknown", eyeInitMin)).1

theorem scanFaces_keep (dist : List ℕ → List ℕ → ℚ) (thr : ℚ) (face : List ℕ) :
    ∀ (l : List (String × List ℕ)) (b : String) (m : ℚ),
      (∀ kv ∈ l, ¬(dist face kv.2 < m ∧ dist face kv.2 < thr)) →
      scanFaces dist thr face l (b, m) = (b, m) := by
  intro l
  induction l with
  | nil => intro b m _; rfl
  | cons kv rest ih =>
      intro b m h
      have hkv := h kv (by simp)
      simp only [scanFaces, if_neg hkv]
      exact ih b m (fun kv' hkv' => h kv' (by simp [hkv']))

theorem scanFaces_firstmin (dist : List ℕ → List ℕ → ℚ) (thr : ℚ) (face : List ℕ)
    (kv : String × List ℕ) (l2 : List (String × List ℕ))
    (h2 : ∀ kv' ∈ l2, ¬(dist face kv'.2 < dist face kv.2))
    (hthr : dist face kv.2 < thr) :
    ∀ (l1 : List (String × List ℕ)) (b : String) (m : ℚ),
      (∀ kv' ∈ l1, dist face kv.2 < dist face kv'.2) →
      dist face kv.2 < m →
      scanFaces dist thr face (l1 ++ kv :: l2) (b, m) = (kv.1, dist face kv.2) := by
  intro l1
  induction l1 with
  | nil =>
      intro b m _ hm
      simp only [List.nil_append, scanFaces, if_pos (And.intro hm hthr)]
      exact scanFaces_keep dist thr face l2 kv.1 (dist face kv.2)
        (fun kv' hkv' hcon => h2 kv' hkv' hcon.1)
  | cons h1 rest ih =>
      intro b m hgt hm
      have hh1 : dist face kv.2 < dist face h1.2 := hgt h1 (by simp)
      simp only [List.cons_append, scanFaces]
      split
      · exact ih h1.1 (dist face h1.2) (fun kv' hkv' => hgt kv' (by simp [hkv'])) hh1
      · exact ih b m (fun kv' hkv' => hgt kv' (by simp [hkv'])) hm

theorem scanFaces_cases (dist : List ℕ → List ℕ → ℚ) (thr : ℚ) (face : List ℕ) :
    ∀ (l : List (String × List ℕ)) (b : String) (m : ℚ),
      (scanFaces dist thr face l (b, m) = (b, m) ∧
        ∀ kv ∈ l, ¬(dist face kv.2 < m ∧ dist face kv.2 < thr)) ∨
      (∃ l1 kv l2, l = l1 ++ kv :: l2 ∧
        scanFaces dist thr face l (b, m) = (kv.1, dist face kv.2) ∧
        dist face kv.2 < thr ∧ dist face kv.2 < m ∧
        (∀ kv' ∈ l1, dist face kv.2 < dist face kv'.2) ∧
        (∀ kv' ∈ l2, ¬(dist face kv'.2 < dist face kv.2))) := by
  intro l
  induction l with
  | nil => intro b m; exact Or.inl ⟨rfl, by simp⟩
  | cons h rest ih =>
      intro b m
      by_cases hc : dist face h.2 < m ∧ dist face h.2 < thr
      · have hstep : scanFaces dist thr face (h :: rest) (b, m)
            = scanFaces dist thr face rest (h.1, dist face h.2) := by
          simp only [scanFaces, if_pos hc]
        rcases ih h.1 (dist face h.2) with ⟨heq, hall⟩ | ⟨l1, kv, l2, hdec, heq, ht, hm', hl1, hl2⟩
        · refine Or.inr ⟨[], h, rest, by simp, by rw [hstep, heq], hc.2, hc.1, by simp, ?_⟩
          intro kv' hkv' hlt
          exact hall kv' hkv' ⟨hlt, lt_trans hlt hc.2⟩
        · refine Or.inr ⟨h :: l1, kv, l2, by simp [hdec], by rw [hstep, heq],
            ht, lt_trans hm' hc.1, ?_, hl2⟩
          intro kv' hkv'
          rcases List.mem_cons.mp hkv' with hkv' | hkv'
          · rw [hkv']; exact hm'
          · exact hl1 kv' hkv'
      · have hstep : scanFaces dist thr face (h :: rest) (b, m)
            = scanFaces dist thr face rest (b, m) := by
          simp only [scanFaces, if_neg hc]
        rcases ih b m with ⟨heq, hall⟩ | ⟨l1, kv, l2, hdec, heq, ht, hm', hl1, hl2⟩
        · refine Or.inl ⟨by rw [hstep, heq], ?_⟩
          intro kv' hkv'
          rcases List.mem_cons.mp hkv' with hkv' | hkv'
          · rw [hkv']; exact hc
          · exact hall kv' hkv'
        · refine Or.inr ⟨h :: l1, kv, l2, by simp [hdec], by rw [hstep, heq], ht, hm', ?_, hl2⟩
          intro kv' hkv'
          rcases List.mem_cons.mp hkv' with hkv' | hkv'
          · rw [hkv']
            by_contra hle
            push_neg at hle
            exact hc ⟨lt_of_le_of_lt hle hm', lt_of_le_of_lt hle ht⟩
          · exact hl1 kv' hkv'


theorem absDiffSum_replicate (x y : ℕ) :
    ∀ n : ℕ, absDiffSum (List.replicate n x) (List.replicate n y) = n * absDiffPix x y := by
  intro n
  induction n with
  | zero => simp [absDiffSum]
  | succ n ih =>
      simp only [List.replicate_succ, absDiffSum, ih]
      ring

theorem sqDiffSum_replicate (x y : ℕ) :
    ∀ n : ℕ, sqDiffSum (List.replicate n x) (List.replicate n y)
      = n * (absDiffPix x y * absDiffPix x y) := by
  intro n
  induction n with
  | zero => simp [sqDiffSum]
  | succ n ih =>
      simp only [List.replicate_succ, sqDiffSum, ih]
      ring

theorem satSqDiffSum_replicate (x y : ℕ) :
    ∀ n : ℕ, satSqDiffSum (List.replicate n x) (List.replicate n y)
      = n * min (absDiffPix x y * absDiffPix x y) 255 := by
  intro n
  induction n with
  | zero => simp [satSqDiffSum]
  | succ n ih =>
      simp only [List.replicate_succ, satSqDiffSum, ih]
      ring

theorem satSqDiffSum_le (a : List ℕ) : ∀ b : List ℕ, satSqDiffSum a b ≤ 255 * a.length := by
  induction a with
  | nil => intro b; cases b <;> simp [satSqDiffSum]
  | cons a as ih =>
      intro b
      cases b with
      | nil => simp [satSqDiffSum]
      | cons b bs =>
          simp only [satSqDiffSum, List.length_cons]
          calc min (absDiffPix a b * absDiffPix a b) 255 + satSqDiffSum as bs
              ≤ 255 + 255 * as.length := Nat.add_le_add (Nat.min_le_right _ _) (ih bs)
            _ = 255 * (as.length + 1) := by ring

/-- The saturated distance of `main.cpp` is below the hard-coded threshold
1500 for every query of at most the canonical 200x200 pixels: each
saturated per-pixel square is at most 255, so the mean is at most 255. -/
theorem mseMain_lt_threshold (a b : List ℕ) (h : a.length ≤ 200 * 200) :
    mseMain a b < 1500 := by
  have h2 : satSqDiffSum a b ≤ 10200000 := by
    have h3 := satSqDiffSum_le a b
    omega
  unfold mseMain
  rw [div_lt_iff₀ (by norm_num)]
  have h1 : (satSqDiffSum a b : ℚ) ≤ 10200000 := by exact_mod_cast h2
  linarith

theorem mseEye_rep10000 :
    mseEye (List.replicate 10000 0) (List.replicate 10000 40) = 40 := by
  have h : absDiffPix 0 40 = 40 := by decide
  unfold mseEye
  rw [absDiffSum_replicate, h]
  push_cast
  norm_num

theorem mseMain_rep0_100 :
    mseMain (List.replicate 40000 0) (List.replicate 40000 100) = 255 := by
  have h : min (absDiffPix 0 100 * absDiffPix 0 100) 255 = 255 := by decide
  unfold mseMain
  rw [satSqDiffSum_replicate, h]
  push_cast
  norm_num

theorem mseMain_rep0_20 :
    mseMain (List.replicate 40000 0) (List.replicate 40000 20) = 255 := by
  have h : min (absDiffPix 0 20 * absDiffPix 0 20) 255 = 255 := by decide
  unfold mseMain
  rw [satSqDiffSum_replicate, h]
  push_cast
  norm_num

theorem sqMeanEye_rep40 :
    (sqDiffSum (List.replicate 10000 0) (List.replicate 10000 40) : ℚ) / (100 * 100)
      = 1600 := by
  have h : absDiffPix 0 40 * absDiffPix 0 40 = 1600 := by decide
  rw [sqDiffSum_replicate, h]
  push_cast
  norm_num

theorem sqMeanMain_rep100 :
    (sqDiffSum (List.replicate 40000 0) (List.replicate 40000 100) : ℚ) / (200 * 200)
      = 10000 := by
  have h : absDiffPix 0 100 * absDiffPix 0 100 = 10000 := by decide
  rw [sqDiffSum_replicate, h]
  push_cast
  norm_num

theorem sqMeanMain_rep20 :
    (sqDiffSum (List.replicate 40000 0) (List.replicate 40000 20) : ℚ) / (200 * 200)
      = 400 := by
  have h : absDiffPix 0 20 * absDiffPix 0 20 = 400 := by decide
  rw [sqDiffSum_replicate, h]
  push_cast
  norm_num

theorem recognizeFaceEye_single (face sig : List ℕ) (n : String)
    (h1 : mseEye face sig < 1000) (h2 : mseEye face sig < eyeInitMin) :
    recognizeFaceEye face [(n, sig)] = n := by
  unfold recognizeFaceEye
  simp only [scanFaces]
  rw [if_pos (And.intro h2 h1)]

theorem recognizeFace_single (face sig : List ℕ) (n : String)
    (h1 : mseMain face sig < 1500) (h2 : mseMain face sig < dblMax) :
    recognizeFace face [(n, sig)] = n := by
  unfold recognizeFace recognizeFaceT
  simp only [scanFaces]
  rw [if_pos (And.intro h2 h1)]

theorem recognizeFace_pair (face s1 s2 : List ℕ) (n1 n2 : String)
    (h1 : mseMain face s1 < 1500) (h2 : mseMain face s1 < dblMax)
    (h3 : ¬(mseMain face s2 < mseMain face s1)) :
    recognizeFace face [(n1, s1), (n2, s2)] = n1 := by
  unfold recognizeFace recognizeFaceT
  simp only [scanFaces]
  rw [if_pos (And.intro h2 h1), if_neg (fun hc => h3 hc.1)]

/-- Claim C7 counterexample: under the spec's exact squared distance, "A"
(uniform per-pixel difference 20, claimed distance 400) is strictly closer
to the all-zero 200x200 query than "B" (uniform difference 100, claimed
distance 10000) and below the threshold, so the claim demands "A" — but
`main.cpp` saturates each squared difference at 255 (CV_8U `mul`), so both
code distances equal 255 and the scan keeps the first entry "B".  The
second gallery shows the rejection half failing too: the claimed minimum
distance 10000 is at or above the threshold 1500, so the claim demands
Unknown, yet the code accepts "B". -/
theorem c7_counterexample :
    recognizeFace (List.replicate 40000 0)
      [("B", List.replicate 40000 100), ("A", List.replicate 40000 20)] = "B" ∧
    (sqDiffSum (List.replicate 40000 0) (List.replicate 40000 20) : ℚ) / (200 * 200)
      = 400 ∧
    (sqDiffSum (List.replicate 40000 0) (List.replicate 40000 100) : ℚ) / (200 * 200)
      = 10000 ∧
    (400 : ℚ) < 1500 ∧ (400 : ℚ) < 10000 ∧ ("B" : String) ≠ "A" ∧
    recognizeFace (List.replicate 40000 0) [("B", List.replicate 40000 100)] = "B" := by
  refine ⟨?_, sqMeanMain_rep20, sqMeanMain_rep100, by norm_num, by norm_num, by decide, ?_⟩
  · refine recognizeFace_pair (List.replicate 40000 0) (List.replicate 40000 100)
      (List.replicate 40000 20) "B" "A" ?_ ?_ ?_
    · rw [mseMain_rep0_100]; norm_num
    · rw [mseMain_rep0_100]; norm_num [dblMax]
    · rw [mseMain_rep0_100, mseMain_rep0_20]; simp
  · refine recognizeFace_single (List.replicate 40000 0) (List.replicate 40000 100) "B" ?_ ?_
    · rw [mseMain_rep0_100]; norm_num
    · rw [mseMain_rep0_100]; norm_num [dblMax]

/-- Claim C7 as amended: over the distance `main.cpp` actually computes
(mean of per-pixel squared differences saturated at 255) and with the
threshold exposed as a parameter (`recognizeFaceT`, hard-coded 1500 in the
source): (i) a gallery identity strictly closest in the saturated distance
and below the threshold is returned; (ii) if every saturated distance is
at or above the threshold the result is Unknown; (iii) raising the
threshold never turns an accepted identity into Unknown — the accepted
result is unchanged; and (iv) for a query of at most the canonical
200x200 pixels every saturated distance is below 1500, so the hard-coded
threshold never rejects. -/
theorem c7_threshold_monotonicity :
    ∀ (face : List ℕ) (g : List (String × List ℕ)) (thr thr' : ℚ),
      ((g.map Prod.fst).Nodup →
        ∀ (A : String) (sA : List ℕ), (A, sA) ∈ g →
          mseMain face sA < thr → mseMain face sA < dblMax →
          (∀ kv ∈ g, kv.1 ≠ A → mseMain face sA < mseMain face kv.2) →
          recognizeFaceT thr face g = A) ∧
      ((∀ kv ∈ g, thr ≤ mseMain face kv.2) → recognizeFaceT thr face g = "Unknown") ∧
      (thr ≤ thr' → recognizeFaceT thr face g ≠ "Unknown" →
        recognizeFaceT thr' face g = recognizeFaceT thr face g) ∧
      (face.length ≤ 200 * 200 → ∀ kv ∈ g, mseMain face kv.2 < 1500) := by
  intro face g thr thr'
  refine ⟨?_, ?_, ?_, ?_⟩
  · intro hnd A sA hmem hthr hmax hstrict
    rcases List.append_of_mem hmem with ⟨l1, l2, rfl⟩
    rw [List.map_append, List.map_cons] at hnd
    rw [List.nodup_append] at hnd
    obtain ⟨_, hnd2, hdisj⟩ := hnd
    have hA1 : ∀ kv' ∈ l1, kv'.1 ≠ A := by
      intro kv' hkv' hEq
      refine hdisj (List.mem_map_of_mem Prod.fst hkv') ?_
      rw [hEq]
      exact List.mem_cons_self _ _
    have hA2 : ∀ kv' ∈ l2, kv'.1 ≠ A := by
      intro kv' hkv' hEq
      refine (List.nodup_cons.mp hnd2).1 ?_
      have := List.mem_map_of_mem Prod.fst hkv'
      rw [hEq] at this
      exact this
    unfold recognizeFaceT
    rw [scanFaces_firstmin mseMain thr face (A, sA) l2
      (fun kv' hkv' => not_lt.mpr (le_of_lt
        (hstrict kv' (by simp [hkv']) (hA2 kv' hkv'))))
      hthr l1 "Unknown" dblMax
      (fun kv' hkv' => hstrict kv' (by simp [hkv']) (hA1 kv' hkv'))
      hmax]
  · intro hall
    unfold recognizeFaceT
    rw [scanFaces_keep mseMain thr face g "Unknown" dblMax
      (fun kv hkv hcon => absurd hcon.2 (not_lt.mpr (hall kv hkv)))]
  · intro hle hne
    rcases scanFaces_cases mseMain thr face g "Unknown" dblMax with
      ⟨heq, _⟩ | ⟨l1, kv, l2, hdec, heq, ht, hm, hl1, hl2⟩
    · exact absurd (by unfold recognizeFaceT; rw [heq]) hne
    · have h1 : recognizeFaceT thr face g = kv.1 := by
        unfold recognizeFaceT; rw [heq]
      have h2 : recognizeFaceT thr' face g = kv.1 := by
        unfold recognizeFaceT
        rw [hdec, scanFaces_firstmin mseMain thr' face kv l2 hl2
          (lt_of_lt_of_le ht hle) l1 "Unknown" dblMax hl1 hm]
      rw [h1, h2]
  · intro hlen kv _
    exact mseMain_lt_threshold face kv.2 hlen

/-- Witness for the amended C7 at a concrete gallery: "A" (saturated
distance 100/40000) is strictly closer than "B" (saturated distance
255/40000) and wins at threshold 1500; threshold 0 rejects everything;
raising 1500 to 3000 keeps the accepted result; and the canonical-size
bound applies to the one-pixel query. -/
theorem c7_witness :
    recognizeFaceT 1500 [0] [("A", [10]), ("B", [20])] = "A" ∧
    recognizeFaceT 0 [0] [("A", [10]), ("B", [20])] = "Unknown" ∧
    recognizeFaceT 3000 [0] [("A", [10]), ("B", [20])]
      = recognizeFaceT 1500 [0] [("A", [10]), ("B", [20])] ∧
    mseMain [0] [10] < 1500 :=
  ⟨(c7_threshold_monotonicity [0] [("A", [10]), ("B", [20])] 1500 3000).1
      (by simp) "A" [10] (by simp)
      (by norm_num [mseMain, satSqDiffSum, absDiffPix])
      (by norm_num [mseMain, satSqDiffSum, absDiffPix, dblMax])
      (by
        intro kv hkv hne
        fin_cases hkv
        · simp at hne
        · norm_num [mseMain, satSqDiffSum, absDiffPix]),
   (c7_threshold_monotonicity [0] [("A", [10]), ("B", [20])] 0 0).2.1
      (by
        intro kv hkv
        fin_cases hkv <;> norm_num [mseMain, satSqDiffSum, absDiffPix]),
   (c7_threshold_monotonicity [0] [("A", [10]), ("B", [20])] 1500 3000).2.2.1
      (by norm_num)
      (by
        rw [(c7_threshold_monotonicity [0] [("A", [10]), ("B", [20])] 1500 3000).1
          (by simp) "A" [10] (by simp)
          (by norm_num [mseMain, satSqDiffSum, absDiffPix])
          (by norm_num [mseMain, satSqDiffSum, absDiffPix, dblMax])
          (by
            intro kv hkv hne
            fin_cases hkv
            · simp at hne
            · norm_num [mseMain, satSqDiffSum, absDiffPix])]
        simp),
   (c7_threshold_monotonicity [0] [("A", [10]), ("B", [20])] 1500 3000).2.2.2
      (by simp) ("A", [10]) (by simp)⟩

/-- Claim C8 counterexample: the matcher has no canonical iteration order —
it scans `known_faces` (an `unordered_map`) in whatever order the container
yields.  The valid 8-bit query pixel 100 has per-pixel difference 40 to
both gallery entries, and each squared difference 1600 saturates to 255,
so the two saturated distances tie and the two iteration orders of the
same gallery contents produce different results. -/
theorem c8_counterexample :
    recognizeFace [100] [("A", [140]), ("B", [60])] = "A" ∧
    recognizeFace [100] [("B", [60]), ("A", [140])] = "B" ∧
    List.Perm [("A", [(140 : ℕ)]), ("B", [60])] [("B", [60]), ("A", [140])] ∧
    ("A" : String) ≠ "B" := by
  have hAB : satSqDiffSum [100] [140] = 255 := by decide
  have hBA : satSqDiffSum [100] [60] = 255 := by decide
  refine ⟨?_, ?_, List.Perm.swap ("B", [60]) ("A", [140]) [], by decide⟩
  · refine recognizeFace_pair [100] [140] [60] "A" "B" ?_ ?_ ?_
    · unfold mseMain; rw [hAB]; norm_num
    · unfold mseMain; rw [hAB]; norm_num [dblMax]
    · unfold mseMain; rw [hAB, hBA]; simp
  · refine recognizeFace_pair [100] [60] [140] "B" "A" ?_ ?_ ?_
    · unfold mseMain; rw [hBA]; norm_num
    · unfold mseMain; rw [hBA]; norm_num [dblMax]
    · unfold mseMain; rw [hAB, hBA]; simp

/-- Claim C8 as amended: the scan is deterministic only relative to the
iteration order it is handed; a tie in the saturated distance between the
minimal entry and later entries resolves to the earlier entry of that
order. -/
theorem c8_tie_first_in_order :
    ∀ (face : List ℕ) (l1 l2 : List (String × List ℕ)) (kv : String × List ℕ),
      (∀ kv' ∈ l1, mseMain face kv.2 < mseMain face kv'.2) →
      (∀ kv' ∈ l2, ¬(mseMain face kv'.2 < mseMain face kv.2)) →
      mseMain face kv.2 < 1500 →
      mseMain face kv.2 < dblMax →
      recognizeFace face (l1 ++ kv :: l2) = kv.1 := by
  intro face l1 l2 kv hl1 hl2 hthr hmax
  unfold recognizeFace recognizeFaceT
  rw [scanFaces_firstmin mseMain 1500 face kv l2 hl2 hthr l1 "Unknown" dblMax hl1 hmax]

/-- Witness for the amended C8: a query at saturated distance 255/40000
from both entries ties, and the first entry of the iteration order wins. -/
theorem c8_witness :
    recognizeFace [100] ([] ++ ("A", [140]) :: [("B", [60])]) = "A" :=
  c8_tie_first_in_order [100] [] [("B", [60])] ("A", [140])
    (by simp)
    (by
      intro kv hkv
      fin_cases hkv
      norm_num [mseMain, satSqDiffSum, absDiffPix])
    (by norm_num [mseMain, satSqDiffSum, absDiffPix])
    (by norm_num [mseMain, satSqDiffSum, absDiffPix, dblMax])

/-- Claim C2 counterexample: neither variant computes the claimed mean of
exact squared per-pixel differences.  `eye detection.cpp` never squares: a
100x100 all-zero query against an intensity-40 gallery image has code
distance 40 (accepted) where the claimed distance 1600 is at or above its
threshold 1000, so the claim demands Unknown.  `main.cpp` squares but
saturates each product at 255 (CV_8U `mul`): a 200x200 all-zero query
against an intensity-100 gallery image has code distance 255 (accepted)
where the claimed distance 10000 is at or above its threshold 1500, so the
claim again demands Unknown. -/
theorem c2_counterexample :
    recognizeFaceEye (List.replicate 10000 0) [("A", List.replicate 10000 40)] = "A" ∧
    (sqDiffSum (List.replicate 10000 0) (List.replicate 10000 40) : ℚ) / (100 * 100)
      = 1600 ∧
    ¬((sqDiffSum (List.replicate 10000 0) (List.replicate 10000 40) : ℚ) / (100 * 100)
      < 1000) ∧
    mseEye (List.replicate 10000 0) (List.replicate 10000 40) = 40 ∧
    recognizeFace (List.replicate 40000 0) [("C", List.replicate 40000 100)] = "C" ∧
    (sqDiffSum (List.replicate 40000 0) (List.replicate 40000 100) : ℚ) / (200 * 200)
      = 10000 ∧
    ¬((sqDiffSum (List.replicate 40000 0) (List.replicate 40000 100) : ℚ) / (200 * 200)
      < 1500) ∧
    mseMain (List.replicate 40000 0) (List.replicate 40000 100) = 255 := by
  refine ⟨?_, sqMeanEye_rep40, by rw [sqMeanEye_rep40]; norm_num, mseEye_rep10000,
    ?_, sqMeanMain_rep100, by rw [sqMeanMain_rep100]; norm_num, mseMain_rep0_100⟩
  · refine recognizeFaceEye_single (List.replicate 10000 0) (List.replicate 10000 40) "A"
      ?_ ?_
    · rw [mseEye_rep10000]; norm_num
    · rw [mseEye_rep10000]; norm_num [eyeInitMin]
  · refine recognizeFace_single (List.replicate 40000 0) (List.replicate 40000 100) "C"
      ?_ ?_
    · rw [mseMain_rep0_100]; norm_num
    · rw [mseMain_rep0_100]; norm_num [dblMax]

/-- Claim C2 as amended: both variants return the first gallery entry
achieving the minimal code distance, but neither code distance is the
claimed mean of exact squared differences: `main.cpp` divides the sum of
per-pixel squares saturated at 255 (CV_8U `mul`) by 200·200, so its
distance never exceeds 255 and the hard-coded threshold 1500 never rejects
a canonical 200x200 query — a non-empty gallery always yields some gallery
entry, never the Unknown fallback; `eye detection.cpp` divides the sum of
absolute (unsquared) differences by 100·100 against threshold 1000. -/
theorem c2_matcher_distance :
    (∀ (face : List ℕ) (l1 l2 : List (String × List ℕ)) (kv : String × List ℕ),
        (∀ kv' ∈ l1, mseMain face kv.2 < mseMain face kv'.2) →
        (∀ kv' ∈ l2, ¬(mseMain face kv'.2 < mseMain face kv.2)) →
        mseMain face kv.2 < 1500 → mseMain face kv.2 < dblMax →
        recognizeFace face (l1 ++ kv :: l2) = kv.1) ∧
    (∀ (face : List ℕ) (g : List (String × List ℕ)),
        face.length ≤ 200 * 200 → g ≠ [] →
        ∃ kv ∈ g, recognizeFace face g = kv.1 ∧ mseMain face kv.2 < 1500) ∧
    (∀ (face : List ℕ) (g : List (String × List ℕ)),
        (∀ kv ∈ g, 1000 ≤ mseEye face kv.2) → recognizeFaceEye face g = "Unknown") ∧
    (∀ (face : List ℕ) (l1 l2 : List (String × List ℕ)) (kv : String × List ℕ),
        (∀ kv' ∈ l1, mseEye face kv.2 < mseEye face kv'.2) →
        (∀ kv' ∈ l2, ¬(mseEye face kv'.2 < mseEye face kv.2)) →
        mseEye face kv.2 < 1000 → mseEye face kv.2 < eyeInitMin →
        recognizeFaceEye face (l1 ++ kv :: l2) = kv.1) := by
  refine ⟨?_, ?_, ?_, ?_⟩
  · intro face l1 l2 kv hl1 hl2 hthr hmax
    unfold recognizeFace recognizeFaceT
    rw [scanFaces_firstmin mseMain 1500 face kv l2 hl2 hthr l1 "Unknown" dblMax hl1 hmax]
  · intro face g hlen hne
    rcases scanFaces_cases mseMain 1500 face g "Unknown" dblMax with
      ⟨heq, hall⟩ | ⟨l1, kv, l2, hdec, heq, ht, hm, hl1, hl2⟩
    · rcases g with _ | ⟨kv0, g'⟩
      · exact absurd rfl hne
      · exact absurd ⟨lt_trans (mseMain_lt_threshold face kv0.2 hlen) (by norm_num [dblMax]),
          mseMain_lt_threshold face kv0.2 hlen⟩ (hall kv0 (by simp))
    · refine ⟨kv, ?_, ?_, ht⟩
      · rw [hdec]
        simp
      · unfold recognizeFace recognizeFaceT
        rw [heq]
  · intro face g hall
    unfold recognizeFaceEye
    rw [scanFaces_keep mseEye 1000 face g "Unknown" eyeInitMin
      (fun kv hkv hcon => absurd hcon.2 (not_lt.mpr (hall kv hkv)))]
  · intro face l1 l2 kv hl1 hl2 hthr hmin
    unfold recognizeFaceEye
    rw [scanFaces_firstmin mseEye 1000 face kv l2 hl2 hthr l1 "Unknown" eyeInitMin hl1 hmin]

/-- Witness for the amended C2 at concrete galleries for both variants,
including the never-rejects part for a non-empty main.cpp gallery. -/
theorem c2_witness :
    recognizeFace [0] ([] ++ ("A", [10]) :: [("B", [20])]) = "A" ∧
    (∃ kv ∈ ([("C", [5])] : List (String × List ℕ)),
      recognizeFace [0] [("C", [5])] = kv.1 ∧ mseMain [0] kv.2 < 1500) ∧
    recognizeFaceEye [0] ([] ++ ("D", [10]) :: [("E", [20])]) = "D" :=
  ⟨c2_matcher_distance.1 [0] [] [("B", [20])] ("A", [10])
      (by simp)
      (by
        intro kv hkv
        fin_cases hkv
        norm_num [mseMain, satSqDiffSum, absDiffPix])
      (by norm_num [mseMain, satSqDiffSum, absDiffPix])
      (by norm_num [mseMain, satSqDiffSum, absDiffPix, dblMax]),
   c2_matcher_distance.2.1 [0] [("C", [5])] (by simp) (by simp),
   c2_matcher_distance.2.2.2 [0] [] [("E", [20])] ("D", [10])
      (by simp)
      (by
        intro kv hkv
        fin_cases hkv
        norm_num [mseEye, absDiffSum, absDiffPix])
      (by norm_num [mseEye, absDiffSum, absDiffPix])
      (by norm_num [mseEye, absDiffSum, absDiffPix, eyeInitMin])⟩

/-- The on-screen status banner drawn by one iteration of the verification
loop in `runAttendance` of `main.cpp`: no banner (Unknown frame or a
candidate switch), the yellow "Verifying ...", the orange
"Attendance Marked For Today", or the green "Attendance Successful". -/
inductive Status where
  | noBanner : Status
  | verifying : Status
  | alreadyMarked : Status
  | success : Status
  deriving DecidableEq

/-- The loop-local state of `runAttendance` in `main.cpp` together with the
system state it mutates: `candidate_name` (initially "Unknown", set to ""
by `candidate_name.clear()` on Unknown frames), `candidate_start` (the
steady-clock instant the current streak began, in ms), `verified_today`
(whether this streak already went through the marking branch), and a ghost
log `calls` of the names passed to `markAttendance` by the loop. -/
structure LoopState where
  sys : SysState
  candidate_name : String
  candidate_start : ℕ
  verified_today : Bool
  calls : List String
  deriving DecidableEq

/-- One iteration of the verification logic of `runAttendance`
(`main.cpp` lines 214-246), given the recognized name of this frame
(`"Unknown"` when no face was detected or no match accepted), the current
steady-clock instant in ms, and whether the attendance file would open.
`duration >= 3` models
`duration_cast<seconds>(now - candidate_start).count() >= 3`. -/
def loopStep (cd day : String) (ls : LoopState) (detected_name : String) (now : ℕ)
    (fileOk : Bool) : LoopState × Status :=
  if detected_name ≠ "Unknown" then
    if ls.candidate_name ≠ detected_name then
      ({ ls with
          candidate_name := detected_name
          candidate_start := now
          verified_today := false }, Status.noBanner)
    else if (now - ls.candidate_start) / 1000 ≥ 3 then
      if ls.candidate_name ∈ ls.sys.attendance_set then
        ({ ls with verified_today := true }, Status.alreadyMarked)
      else if ls.verified_today = false then
        ({ ls with
            sys := markAttendance cd day ls.sys ls.candidate_name now fileOk
            verified_today := true
            calls := ls.calls ++ [ls.candidate_name] }, Status.success)
      else (ls, Status.success)
    else (ls, Status.verifying)
  else
    ({ ls with candidate_name := "", verified_today := false }, Status.noBanner)

/-- Run the verification loop over a list of frames, each frame given by
(recognized name, instant in ms, file-opened); returns the final state and
the per-frame status banners. -/
def runFrames (cd day : String) : LoopState → List (String × ℕ × Bool) → LoopState × List Status
  | ls, [] => (ls, [])
  | ls, f :: fs =>
      let r := loopStep cd day ls f.1 f.2.1 f.2.2
      let rest := runFrames cd day r.1 fs
      (rest.1, r.2 :: rest.2)

theorem loopStep_unknown (cd day : String) (ls : LoopState) (now : ℕ) (fileOk : Bool) :
    loopStep cd day ls "Unknown" now fileOk
      = ({ ls with candidate_name := "", verified_today := false }, Status.noBanner) := by
  simp [loopStep]

theorem loopStep_switch (cd day : String) (ls : LoopState) (detected : String) (now : ℕ)
    (fileOk : Bool) (hX : detected ≠ "Unknown") (hc : ls.candidate_name ≠ detected) :
    loopStep cd day ls detected now fileOk
      = ({ ls with
            candidate_name := detected
            candidate_start := now
            verified_today := false }, Status.noBanner) := by
  simp [loopStep, hX, hc]

theorem loopStep_verifying (cd day : String) (ls : LoopState) (detected : String) (now : ℕ)
    (fileOk : Bool) (hX : detected ≠ "Unknown") (hc : ls.candidate_name = detected)
    (hd : (now - ls.candidate_start) / 1000 < 3) :
    loopStep cd day ls detected now fileOk = (ls, Status.verifying) := by
  have hc' : ¬ls.candidate_name ≠ detected := by simp [hc]
  simp [loopStep, hX, hc', Nat.not_le.mpr hd]

theorem loopStep_already (cd day : String) (ls : LoopState) (detected : String) (now : ℕ)
    (fileOk : Bool) (hX : detected ≠ "Unknown") (hc : ls.candidate_name = detected)
    (hd : (now - ls.candidate_start) / 1000 ≥ 3)
    (hm : ls.candidate_name ∈ ls.sys.attendance_set) :
    loopStep cd day ls detected now fileOk
      = ({ ls with verified_today := true }, Status.alreadyMarked) := by
  have hc' : ¬ls.candidate_name ≠ detected := by simp [hc]
  simp [loopStep, hX, hc', hd, hm]

theorem loopStep_commit (cd day : String) (ls : LoopState) (detected : String) (now : ℕ)
    (fileOk : Bool) (hX : detected ≠ "Unknown") (hc : ls.candidate_name = detected)
    (hd : (now - ls.candidate_start) / 1000 ≥ 3)
    (hm : ls.candidate_name ∉ ls.sys.attendance_set) (hv : ls.verified_today = false) :
    loopStep cd day ls detected now fileOk
      = ({ ls with
            sys := markAttendance cd day ls.sys ls.candidate_name now fileOk
            verified_today := true
            calls := ls.calls ++ [ls.candidate_name] }, Status.success) := by
  have hc' : ¬ls.candidate_name ≠ detected := by simp [hc]
  simp [loopStep, hX, hc', hd, hm, hv]

theorem loopStep_shown (cd day : String) (ls : LoopState) (detected : String) (now : ℕ)
    (fileOk : Bool) (hX : detected ≠ "Unknown") (hc : ls.candidate_name = detected)
    (hd : (now - ls.candidate_start) / 1000 ≥ 3)
    (hm : ls.candidate_name ∉ ls.sys.attendance_set) (hv : ls.verified_today = true) :
    loopStep cd day ls detected now fileOk = (ls, Status.success) := by
  have hc' : ¬ls.candidate_name ≠ detected := by simp [hc]
  simp [loopStep, hX, hc', hd, hm, hv]

theorem runFrames_verifying (cd day X : String) (hX : X ≠ "Unknown") :
    ∀ (fs : List (String × ℕ × Bool)) (ls : LoopState),
      ls.candidate_name = X →
      (∀ f ∈ fs, f.1 = X ∧ (f.2.1 - ls.candidate_start) / 1000 < 3) →
      runFrames cd day ls fs = (ls, List.replicate fs.length Status.verifying) := by
  intro fs
  induction fs with
  | nil => intro ls _ _; rfl
  | cons f rest ih =>
      intro ls hc hall
      have hf := hall f (by simp)
      have hstep : loopStep cd day ls f.1 f.2.1 f.2.2 = (ls, Status.verifying) :=
        loopStep_verifying cd day ls f.1 f.2.1 f.2.2 (by rw [hf.1]; exact hX)
          (by rw [hc, hf.1]) hf.2
      simp only [runFrames, hstep]
      rw [ih ls hc (fun g hg => hall g (by simp [hg]))]
      simp [List.replicate_succ]

theorem runFrames_already (cd day X : String) (hX : X ≠ "Unknown") :
    ∀ (fs : List (String × ℕ × Bool)) (ls : LoopState),
      ls.candidate_name = X →
      X ∈ ls.sys.attendance_set →
      (∀ f ∈ fs, f.1 = X ∧ (f.2.1 - ls.candidate_start) / 1000 ≥ 3) →
      (runFrames cd day ls fs).1.sys = ls.sys ∧
      (runFrames cd day ls fs).1.calls = ls.calls ∧
      (runFrames cd day ls fs).2 = List.replicate fs.length Status.alreadyMarked := by
  intro fs
  induction fs with
  | nil => intro ls _ _ _; exact ⟨rfl, rfl, rfl⟩
  | cons f rest ih =>
      intro ls hc hm hall
      have hf := hall f (by simp)
      have hstep : loopStep cd day ls f.1 f.2.1 f.2.2
          = ({ ls with verified_today := true }, Status.alreadyMarked) :=
        loopStep_already cd day ls f.1 f.2.1 f.2.2 (by rw [hf.1]; exact hX)
          (by rw [hc, hf.1]) hf.2 (by rw [hc]; exact hm)
      have hrest := ih { ls with verified_today := true } (by simpa using hc)
        (by simpa using hm) (fun g hg => hall g (by simp [hg]))
      simp only [runFrames, hstep]
      exact ⟨hrest.1, hrest.2.1, by rw [hrest.2.2]; simp [List.replicate_succ]⟩

theorem runFrames_steady (cd day X : String) (hX : X ≠ "Unknown") :
    ∀ (fs : List (String × ℕ × Bool)) (ls : LoopState),
      ls.candidate_name = X →
      ls.verified_today = true →
      (∀ f ∈ fs, f.1 = X) →
      (runFrames cd day ls fs).1.sys = ls.sys ∧ (runFrames cd day ls fs).1.calls = ls.calls := by
  intro fs
  induction fs with
  | nil => intro ls _ _ _; exact ⟨rfl, rfl⟩
  | cons f rest ih =>
      intro ls hc hv hall
      have hf := hall f (by simp)
      have hXf : f.1 ≠ "Unknown" := by rw [hf]; exact hX
      have hcf : ls.candidate_name = f.1 := by rw [hc, hf]
      by_cases hd : (f.2.1 - ls.candidate_start) / 1000 ≥ 3
      · by_cases hm : ls.candidate_name ∈ ls.sys.attendance_set
        · have hstep := loopStep_already cd day ls f.1 f.2.1 f.2.2 hXf hcf hd hm
          have hrest := ih { ls with verified_today := true } (by simpa using hc)
            (by simp) (fun g hg => hall g (by simp [hg]))
          simp only [runFrames, hstep]
          exact ⟨hrest.1, hrest.2⟩
        · have hstep := loopStep_shown cd day ls f.1 f.2.1 f.2.2 hXf hcf hd hm hv
          have hrest := ih ls hc hv (fun g hg => hall g (by simp [hg]))
          simp only [runFrames, hstep]
          exact hrest
      · have hstep := loopStep_verifying cd day ls f.1 f.2.1 f.2.2 hXf hcf (Nat.lt_of_not_le hd)
        have hrest := ih ls hc hv (fun g hg => hall g (by simp [hg]))
        simp only [runFrames, hstep]
        exact hrest

theorem runFrames_inSet (cd day X : String) (hX : X ≠ "Unknown") :
    ∀ (fs : List (String × ℕ × Bool)) (ls : LoopState),
      ls.candidate_name = X →
      X ∈ ls.sys.attendance_set →
      (∀ f ∈ fs, f.1 = X) →
      (runFrames cd day ls fs).1.sys = ls.sys ∧ (runFrames cd day ls fs).1.calls = ls.calls := by
  intro fs
  induction fs with
  | nil => intro ls _ _ _; exact ⟨rfl, rfl⟩
  | cons f rest ih =>
      intro ls hc hm hall
      have hf := hall f (by simp)
      have hXf : f.1 ≠ "Unknown" := by rw [hf]; exact hX
      have hcf : ls.candidate_name = f.1 := by rw [hc, hf]
      by_cases hd : (f.2.1 - ls.candidate_start) / 1000 ≥ 3
      · have hstep := loopStep_already cd day ls f.1 f.2.1 f.2.2 hXf hcf hd (by rw [hc]; exact hm)
        have hrest := ih { ls with verified_today := true } (by simpa using hc)
          (by simpa using hm) (fun g hg => hall g (by simp [hg]))
        simp only [runFrames, hstep]
        exact hrest
      · have hstep := loopStep_verifying cd day ls f.1 f.2.1 f.2.2 hXf hcf (Nat.lt_of_not_le hd)
        have hrest := ih ls hc hm (fun g hg => hall g (by simp [hg]))
        simp only [runFrames, hstep]
        exact hrest

theorem runFrames_trigger (cd day X : String) (hX : X ≠ "Unknown") :
    ∀ (fs : List (String × ℕ × Bool)) (ls : LoopState),
      ls.candidate_name = X →
      ls.verified_today = false →
      X ∉ ls.sys.attendance_set →
      (∀ f ∈ fs, f.1 = X) →
      (∃ f ∈ fs, (f.2.1 - ls.candidate_start) / 1000 ≥ 3) →
      (runFrames cd day ls fs).1.calls = ls.calls ++ [X] := by
  intro fs
  induction fs with
  | nil =>
      intro ls _ _ _ _ hex
      simp at hex
  | cons f rest ih =>
      intro ls hc hv hm hall hex
      have hf := hall f (by simp)
      have hXf : f.1 ≠ "Unknown" := by rw [hf]; exact hX
      have hcf : ls.candidate_name = f.1 := by rw [hc, hf]
      by_cases hd : (f.2.1 - ls.candidate_start) / 1000 ≥ 3
      · have hstep := loopStep_commit cd day ls f.1 f.2.1 f.2.2 hXf hcf hd
          (by rw [hc]; exact hm) hv
        have hrest := runFrames_steady cd day X hX rest
          { ls with
            sys := markAttendance cd day ls.sys ls.candidate_name f.2.1 f.2.2
            verified_today := true
            calls := ls.calls ++ [ls.candidate_name] }
          (by simpa using hc) (by simp) (fun g hg => hall g (by simp [hg]))
        simp only [runFrames, hstep]
        rw [hrest.2]
        simp [hc]
      · obtain ⟨g, hg, hgd⟩ := hex
        rcases List.mem_cons.mp hg with hgf | hg'
        · rw [hgf] at hgd; exact absurd hgd hd
        · have hstep := loopStep_verifying cd day ls f.1 f.2.1 f.2.2 hXf hcf (Nat.lt_of_not_le hd)
          have hrest := ih ls hc hv hm (fun g' hg2 => hall g' (by simp [hg2])) ⟨g, hg', hgd⟩
          simp only [runFrames, hstep]
          exact hrest

/-- Claim C3 counterexample: with "Alice" already in the ledger for today's
date (today-set loaded by `loadAttendance`), a continuous streak of Alice
detections lasting 3.5 s (at or above the dwell threshold) causes zero
invocations of `markAttendance` and zero cooldown-table writes — the loop
takes the already-marked branch before `markAttendance` — so a qualifying
streak does not always cause exactly one mark attempt. -/
theorem c3_counterexample :
    (runFrames "2026-10-11" "Sat"
        ⟨⟨loadAttendance ["Alice,2026-10-11,Sat"] "2026-10-11", [], []⟩, "Unknown", 0, false, []⟩
        [("Alice", 0, true), ("Alice", 1000, true), ("Alice", 3500, true)]).1.calls = [] ∧
    (runFrames "2026-10-11" "Sat"
        ⟨⟨loadAttendance ["Alice,2026-10-11,Sat"] "2026-10-11", [], []⟩, "Unknown", 0, false, []⟩
        [("Alice", 0, true), ("Alice", 1000, true), ("Alice", 3500, true)]).1.sys.last_mark_time
      = [] ∧
    (runFrames "2026-10-11" "Sat"
        ⟨⟨loadAttendance ["Alice,2026-10-11,Sat"] "2026-10-11", [], []⟩, "Unknown", 0, false, []⟩
        [("Alice", 0, true), ("Alice", 1000, true), ("Alice", 3500, true)]).2
      = [Status.noBanner, Status.verifying, Status.alreadyMarked] ∧
    (3500 - 0) / 1000 ≥ 3 := by
  decide

/-- Claim C3 as amended: for a fresh streak of X (candidate already X,
`verified_today` false), (i) if every frame of the streak is strictly
within 3 s of the streak start, the loop state is completely unchanged and
every frame shows "verifying" — no commit and no cooldown write; (ii) if X
is absent from the today-set and some frame reaches the threshold,
`markAttendance` is invoked exactly once for X during the streak; (iii) if
X is already in the today-set, a streak of any length invokes
`markAttendance` zero times and leaves the system state unchanged. -/
theorem c3_dwell :
    ∀ (cd day X : String) (ls : LoopState) (fs : List (String × ℕ × Bool)),
      X ≠ "Unknown" →
      ls.candidate_name = X →
      ls.verified_today = false →
      ((∀ f ∈ fs, f.1 = X ∧ (f.2.1 - ls.candidate_start) / 1000 < 3) →
        runFrames cd day ls fs = (ls, List.replicate fs.length Status.verifying)) ∧
      ((∀ f ∈ fs, f.1 = X) → X ∉ ls.sys.attendance_set →
        (∃ f ∈ fs, (f.2.1 - ls.candidate_start) / 1000 ≥ 3) →
        (runFrames cd day ls fs).1.calls = ls.calls ++ [X]) ∧
      ((∀ f ∈ fs, f.1 = X) → X ∈ ls.sys.attendance_set →
        (runFrames cd day ls fs).1.sys = ls.sys ∧
        (runFrames cd day ls fs).1.calls = ls.calls) := by
  intro cd day X ls fs hX hc hv
  exact ⟨fun hall => runFrames_verifying cd day X hX fs ls hc hall,
    fun hall hm hex => runFrames_trigger cd day X hX fs ls hc hv hm hall hex,
    fun hall hm => runFrames_inSet cd day X hX fs ls hc hm hall⟩

/-- Witness for the amended C3 at a concrete streak of "Bob". -/
theorem c3_witness :
    (runFrames "2026-10-11" "Sat" ⟨⟨[], [], []⟩, "Bob", 0, false, []⟩
        [("Bob", 3000, true)]).1.calls = [] ++ ["Bob"] :=
  (c3_dwell "2026-10-11" "Sat" "Bob" ⟨⟨[], [], []⟩, "Bob", 0, false, []⟩
      [("Bob", 3000, true)] (by decide) rfl rfl).2.1
    (by decide) (by simp) (by decide)

/-- Claim C5 counterexample: a streak of X that commits successfully shows
the green "success" banner on the committing frame, but the very next
frame of the same unbroken streak finds X in the today-set and shows the
orange "already marked" banner instead — the success status does not keep
showing. -/
theorem c5_counterexample :
    (runFrames "2026-10-11" "Sat" ⟨⟨[], [], []⟩, "Unknown", 0, false, []⟩
        [("X", 0, true), ("X", 3000, true), ("X", 3100, true)]).2
      = [Status.noBanner, Status.success, Status.alreadyMarked] ∧
    Status.alreadyMarked ≠ Status.success := by
  decide

/-- Claim C5 as amended: (i) the committing frame of a streak (X absent
from the today-set, not yet verified, dwell reached, cooldown clear) shows
"success", puts X into the today-set and logs exactly one `markAttendance`
invocation; (ii) once X is in the today-set, every further frame of the
unbroken streak at or past the dwell threshold shows the "already marked"
banner — not "success" — and neither invokes `markAttendance` again nor
touches the system state. -/
theorem c5_idempotent_display :
    ∀ (cd day X : String) (ls : LoopState) (now : ℕ) (fileOk : Bool)
      (fs : List (String × ℕ × Bool)),
      X ≠ "Unknown" →
      ls.candidate_name = X →
      ((X ∉ ls.sys.attendance_set → ls.verified_today = false →
        (now - ls.candidate_start) / 1000 ≥ 3 →
        cooldownBlocked ls.sys X now = false →
        (loopStep cd day ls X now fileOk).2 = Status.success ∧
        X ∈ (loopStep cd day ls X now fileOk).1.sys.attendance_set ∧
        (loopStep cd day ls X now fileOk).1.calls = ls.calls ++ [X]) ∧
      (X ∈ ls.sys.attendance_set →
        (∀ f ∈ fs, f.1 = X ∧ (f.2.1 - ls.candidate_start) / 1000 ≥ 3) →
        (runFrames cd day ls fs).2 = List.replicate fs.length Status.alreadyMarked ∧
        (runFrames cd day ls fs).1.sys = ls.sys ∧
        (runFrames cd day ls fs).1.calls = ls.calls)) := by
  intro cd day X ls now fileOk fs hX hc
  constructor
  · intro hm hv hd hcb
    have hstep := loopStep_commit cd day ls X now fileOk hX hc hd (by rw [hc]; exact hm) hv
    refine ⟨by rw [hstep], ?_, by rw [hstep]; simp [hc]⟩
    rw [hstep]
    show X ∈ (markAttendance cd day ls.sys ls.candidate_name now fileOk).attendance_set
    rw [hc]
    unfold markAttendance
    rw [if_neg (by rw [hcb]; exact Bool.false_ne_true)]
    unfold markCore
    rw [if_neg (by simpa using hm)]
    by_cases hf : fileOk <;> simp [hf, mem_insertSet_self]
  · intro hm hall
    have h := runFrames_already cd day X hX fs ls hc hm hall
    exact ⟨h.2.2, h.1, h.2.1⟩

/-- Witness for the amended C5 at a concrete streak. -/
theorem c5_witness :
    (loopStep "2026-10-11" "Sat" ⟨⟨[], [], []⟩, "X", 0, false, []⟩ "X" 3000 true).2
      = Status.success ∧
    (runFrames "2026-10-11" "Sat" ⟨⟨["X"], [], []⟩, "X", 0, true, []⟩
        [("X", 3100, true)]).2 = List.replicate 1 Status.alreadyMarked :=
  ⟨((c5_idempotent_display "2026-10-11" "Sat" "X" ⟨⟨[], [], []⟩, "X", 0, false, []⟩
      3000 true [] (by decide) rfl).1 (by simp) rfl (by decide) (by decide)).1,
   (((c5_idempotent_display "2026-10-11" "Sat" "X" ⟨⟨["X"], [], []⟩, "X", 0, true, []⟩
      3000 true [("X", 3100, true)] (by decide) rfl).2 (by simp) (by decide))).1⟩

/-- Claim C6 counterexample: an enrollment identity equal to the empty
string (producible by `inferName` from a photo whose stem starts with
a separator) collides with the sentinel left by `candidate_name.clear()`.
For the frame sequence ("" accepted at 0 ms, Unknown at 1000 ms, ""
accepted at 3000 ms), the third frame resumes the old streak: the dwell
timer still starts at 0, the pre-interruption time counts, and a commit
fires — the claimed reset does not happen for this identity. -/
theorem c6_counterexample :
    (runFrames "2026-10-11" "Sat" ⟨⟨[], [], []⟩, "Unknown", 0, false, []⟩
        [("", 0, true), ("Unknown", 1000, true), ("", 3000, true)]).2
      = [Status.noBanner, Status.noBanner, Status.success] ∧
    (runFrames "2026-10-11" "Sat" ⟨⟨[], [], []⟩, "Unknown", 0, false, []⟩
        [("", 0, true), ("Unknown", 1000, true), ("", 3000, true)]).1.calls = [""] ∧
    (runFrames "2026-10-11" "Sat" ⟨⟨[], [], []⟩, "Unknown", 0, false, []⟩
        [("", 0, true), ("Unknown", 1000, true), ("", 3000, true)]).1.candidate_start = 0 ∧
    (0 : ℕ) ≠ 3000 := by
  decide

/-- Claim C6 as amended: for every accepted identity other than the empty
string, a frame sequence (X, Unknown/none, X) resets the tracking state at
the Unknown frame, so the third frame starts a fresh streak: afterwards
the candidate is X, the dwell timer restarts at the third frame's instant,
`verified_today` is false, no banner is shown, and the Unknown and
restart frames neither invoke `markAttendance` nor change the system
state. -/
theorem c6_streak_reset :
    ∀ (cd day X : String) (ls : LoopState) (t2 t3 : ℕ) (b2 b3 : Bool),
      X ≠ "Unknown" → X ≠ "" →
      (loopStep cd day (loopStep cd day ls "Unknown" t2 b2).1 X t3 b3).1.candidate_name = X ∧
      (loopStep cd day (loopStep cd day ls "Unknown" t2 b2).1 X t3 b3).1.candidate_start = t3 ∧
      (loopStep cd day (loopStep cd day ls "Unknown" t2 b2).1 X t3 b3).1.verified_today
        = false ∧
      (loopStep cd day (loopStep cd day ls "Unknown" t2 b2).1 X t3 b3).2 = Status.noBanner ∧
      (loopStep cd day (loopStep cd day ls "Unknown" t2 b2).1 X t3 b3).1.sys = ls.sys ∧
      (loopStep cd day (loopStep cd day ls "Unknown" t2 b2).1 X t3 b3).1.calls = ls.calls := by
  intro cd day X ls t2 t3 b2 b3 hX hE
  rw [loopStep_unknown]
  rw [loopStep_switch cd day { ls with candidate_name := "", verified_today := false } X t3 b3
    hX (by simpa using fun h => hE h.symm)]
  simp

/-- Witness for the amended C6 at a concrete interrupted streak. -/
theorem c6_witness :
    (loopStep "2026-10-11" "Sat"
        (loopStep "2026-10-11" "Sat" ⟨⟨[], [], []⟩, "Alice", 0, false, []⟩
          "Unknown" 1000 true).1
        "Alice" 3000 true).1.candidate_start = 3000 :=
  (c6_streak_reset "2026-10-11" "Sat" "Alice" ⟨⟨[], [], []⟩, "Alice", 0, false, []⟩
    1000 3000 true true (by decide) (by decide)).2.1

theorem markAttendance_ledger_delta (cd day : String) (s : SysState) (name : String)
    (now : ℕ) (fileOk : Bool) :
    (markAttendance cd day s name now fileOk).ledger = s.ledger ∨
    (markAttendance cd day s name now fileOk).ledger = s.ledger ++ [(name, cd, day)] := by
  unfold markAttendance markCore
  split
  · exact Or.inl rfl
  · by_cases hm : name ∈ s.attendance_set
    · simp [hm]
    · by_cases hf : fileOk
      · simp [hm, hf]
      · simp [hm, hf]

theorem loopStep_delta (cd day : String) (ls : LoopState) (d : String) (now : ℕ) (b : Bool) :
    ∃ nc nr,
      (loopStep cd day ls d now b).1.calls = ls.calls ++ nc ∧
      (loopStep cd day ls d now b).1.sys.ledger = ls.sys.ledger ++ nr ∧
      (∀ n ∈ nc, n ≠ "Unknown") ∧
      (∀ r ∈ nr, r.1 ≠ "Unknown") := by
  by_cases hX : d ≠ "Unknown"
  · by_cases hc : ls.candidate_name ≠ d
    · rw [loopStep_switch cd day ls d now b hX hc]
      exact ⟨[], [], by simp, by simp, by simp, by simp⟩
    · have hcd : ls.candidate_name = d := by simpa using hc
      by_cases hd : (now - ls.candidate_start) / 1000 ≥ 3
      · by_cases hm : ls.candidate_name ∈ ls.sys.attendance_set
        · rw [loopStep_already cd day ls d now b hX hcd hd hm]
          exact ⟨[], [], by simp, by simp, by simp, by simp⟩
        · by_cases hv : ls.verified_today = false
          · rw [loopStep_commit cd day ls d now b hX hcd hd hm hv]
            have hcX : ls.candidate_name ≠ "Unknown" := by rw [hcd]; exact hX
            rcases markAttendance_ledger_delta cd day ls.sys ls.candidate_name now b with
              h | h
            · exact ⟨[ls.candidate_name], [], by simp, by simp [h], by simp [hcX], by simp⟩
            · exact ⟨[ls.candidate_name], [(ls.candidate_name, cd, day)], by simp,
                by simp [h], by simp [hcX], by simp [hcX]⟩
          · have hv' : ls.verified_today = true := by
              cases h : ls.verified_today
              · exact absurd h hv
              · rfl
            rw [loopStep_shown cd day ls d now b hX hcd hd hm hv']
            exact ⟨[], [], by simp, by simp, by simp, by simp⟩
      · rw [loopStep_verifying cd day ls d now b hX hcd (Nat.lt_of_not_le hd)]
        exact ⟨[], [], by simp, by simp, by simp, by simp⟩
  · have hU : d = "Unknown" := by simpa using hX
    rw [hU, loopStep_unknown]
    exact ⟨[], [], by simp, by simp, by simp, by simp⟩

/-- Claim C10: the verification loop of `main.cpp` never passes "Unknown"
to `markAttendance` — over any frame sequence from any starting state, the
names handed to `markAttendance` and the names of the records the loop
appends to the ledger all differ from "Unknown". -/
theorem c10_no_unknown_marks :
    ∀ (cd day : String) (fs : List (String × ℕ × Bool)) (ls : LoopState),
      ∃ newCalls newRecs,
        (runFrames cd day ls fs).1.calls = ls.calls ++ newCalls ∧
        (runFrames cd day ls fs).1.sys.ledger = ls.sys.ledger ++ newRecs ∧
        (∀ n ∈ newCalls, n ≠ "Unknown") ∧
        (∀ r ∈ newRecs, r.1 ≠ "Unknown") := by
  intro cd day fs
  induction fs with
  | nil => intro ls; exact ⟨[], [], by simp [runFrames], by simp [runFrames], by simp, by simp⟩
  | cons f rest ih =>
      intro ls
      obtain ⟨nc1, nr1, h1, h2, h3, h4⟩ := loopStep_delta cd day ls f.1 f.2.1 f.2.2
      obtain ⟨nc2, nr2, g1, g2, g3, g4⟩ := ih (loopStep cd day ls f.1 f.2.1 f.2.2).1
      refine ⟨nc1 ++ nc2, nr1 ++ nr2, ?_, ?_, ?_, ?_⟩
      · show (runFrames cd day (loopStep cd day ls f.1 f.2.1 f.2.2).1 rest).1.calls = _
        rw [g1, h1, List.append_assoc]
      · show (runFrames cd day (loopStep cd day ls f.1 f.2.1 f.2.2).1 rest).1.sys.ledger = _
        rw [g2, h2, List.append_assoc]
      · intro n hn
        rcases List.mem_append.mp hn with hn | hn
        · exact h3 n hn
        · exact g3 n hn
      · intro r hr
        rcases List.mem_append.mp hr with hr | hr
        · exact h4 r hr
        · exact g4 r hr

/-- `AttendanceSystem::isImage` of `main.cpp`: lower-case the extension and
compare against the supported image extensions. -/
def isImage (ext : String) : Bool :=
  let e := String.mk (ext.data.map Char.toLower)
  e == ".jpg" || e == ".jpeg" || e == ".png" || e == ".bmp" || e == ".tiff"

/-- `AttendanceSystem::inferName` of `main.cpp`: the stem up to the first
of the separator characters underscore, hyphen or space
(`stem.find_first_of("_- ")`, whole stem when none occurs). -/
def inferName (stem : String) : String :=
  String.mk (stem.data.takeWhile (fun c => !(c = '_' || c = '-' || c = ' ')))

/-- One directory entry seen by `loadKnownFaces`: whether it is a regular
file, its extension and stem, and the result of `imread` + `extractFace`
(`none` models an empty face matrix, i.e. unreadable image or no detected
face). -/
structure DirEntry where
  is_regular : Bool
  ext : String
  stem : String
  face : Option (List ℕ)
  deriving DecidableEq

/-- Fatal startup failures of `main.cpp` (`exit(EXIT_FAILURE)`). -/
inductive InitError where
  | badPhotosPath : InitError
  | noUsableFaces : InitError
  deriving DecidableEq

/-- `known_faces[name] = face`: `unordered_map` upsert keyed by name. -/
def upsertFace (g : List (String × List ℕ)) (name : String) (f : List ℕ) :
    List (String × List ℕ) :=
  if name ∈ g.map Prod.fst then
    g.map (fun kv => if kv.1 = name then (name, f) else kv)
  else g ++ [(name, f)]

/-- One iteration of the `directory_iterator` loop in `loadKnownFaces` of
`main.cpp`, carrying the gallery and the `loaded` counter. -/
def loadStep (acc : List (String × List ℕ) × ℕ) (e : DirEntry) :
    List (String × List ℕ) × ℕ :=
  if e.is_regular ∧ isImage e.ext then
    match e.face with
    | some f => (upsertFace acc.1 (inferName e.stem) f, acc.2 + 1)
    | none => acc
  else acc

/-- `AttendanceSystem::loadKnownFaces` of `main.cpp`: fatal when the photos
directory is unusable, otherwise scan the entries, load faces, and exit
fatally when `loaded == 0`; `Except.error` models `exit(EXIT_FAILURE)`. -/
def loadKnownFaces (pathOk : Bool) (entries : List DirEntry) :
    Except InitError (List (String × List ℕ)) :=
  if pathOk = false then Except.error InitError.badPhotosPath
  else
    let r := entries.foldl loadStep ([], 0)
    if r.2 = 0 then Except.error InitError.noUsableFaces else Except.ok r.1

/-- How a `runAttendance` call of `eye detection.cpp` leaves its caller:
early `return` because no known faces were found, early `return` because
the webcam failed, or the normal quit out of the frame loop.  All of these
return to the interactive menu; none terminates the process. -/
inductive EyeRunExit where
  | noFaces : EyeRunExit
  | noWebcam : EyeRunExit
  | quitKey : EyeRunExit
  deriving DecidableEq

/-- Entry of `AttendanceSystem::runAttendance` in `eye detection.cpp`:
load the gallery, `return` if it is empty, `return` if the webcam fails,
otherwise run the frame loop until the quit key. -/
def runAttendanceEye (gallery : List (String × List ℕ)) (camOk : Bool) : EyeRunExit :=
  if gallery = [] then EyeRunExit.noFaces
  else if camOk = false then EyeRunExit.noWebcam
  else EyeRunExit.quitKey

/-- One round of the menu loop in `main` of `eye detection.cpp`: choice 1
runs attendance, and the do-while continues whenever the choice is not 3,
regardless of how `runAttendance` returned. -/
def eyeMainStep (gallery : List (String × List ℕ)) (camOk : Bool) (choice : ℕ) :
    Option EyeRunExit × Bool :=
  (if choice = 1 then some (runAttendanceEye gallery camOk) else none, choice ≠ 3)

theorem upsertFace_ne_nil (g : List (String × List ℕ)) (name : String) (f : List ℕ) :
    upsertFace g name f ≠ [] := by
  unfold upsertFace
  split
  · intro h
    rcases g with _ | ⟨kv, g'⟩
    · simp at *
    · simp at h
  · simp

theorem loadStep_ne_nil (entries : List DirEntry) :
    ∀ acc : List (String × List ℕ) × ℕ,
      (acc.2 ≠ 0 → acc.1 ≠ []) →
      (entries.foldl loadStep acc).2 ≠ 0 → (entries.foldl loadStep acc).1 ≠ [] := by
  induction entries with
  | nil => intro acc h; exact h
  | cons e rest ih =>
      intro acc h
      refine ih (loadStep acc e) ?_
      unfold loadStep
      split
      · cases hf : e.face with
        | some f => intro _; exact upsertFace_ne_nil acc.1 (inferName e.stem) f
        | none => exact h
      · exact h

/-- Claim C9 counterexample: in `eye detection.cpp` the empty-gallery check
happens inside `runAttendance`, not at startup, and an empty gallery makes
`runAttendance` return to the interactive menu (the do-while continues
because the choice 1 is not 3); the process does not fail fatally. -/
theorem c9_counterexample :
    eyeMainStep [] true 1 = (some EyeRunExit.noFaces, true) ∧
    (some EyeRunExit.noFaces, true).2 ≠ false := by
  decide

/-- Claim C9 as amended: `main.cpp` does fail fatally at startup on an
empty gallery — `loadKnownFaces` never returns a gallery without loading
at least one face, and an unusable photos directory or zero usable faces
yields a fatal error before recognition; but `eye detection.cpp` merely
returns from `runAttendance` to the menu, which keeps running, so the
process continues (without recognizing) rather than aborting. -/
theorem c9_empty_gallery :
    (∀ (pathOk : Bool) (entries : List DirEntry) (g : List (String × List ℕ)),
        loadKnownFaces pathOk entries = Except.ok g → g ≠ []) ∧
    (∀ camOk : Bool, eyeMainStep [] camOk 1 = (some EyeRunExit.noFaces, true)) := by
  constructor
  · intro pathOk entries g h
    unfold loadKnownFaces at h
    by_cases hp : pathOk = false
    · rw [if_pos hp] at h
      exact absurd h (by simp)
    · rw [if_neg hp] at h
      by_cases hz : (entries.foldl loadStep ([], 0)).2 = 0
      · rw [if_pos hz] at h
        exact absurd h (by simp)
      · rw [if_neg hz] at h
        have hg : (entries.foldl loadStep ([], 0)).1 = g := by
          simpa using h
        rw [← hg]
        exact loadStep_ne_nil entries ([], 0) (by simp) hz
  · intro camOk
    rfl

/-- Witness for the amended C9: a concrete load with one usable photo
yields a nonempty gallery, and the eye variant with an empty gallery
returns to a still-running menu. -/
theorem c9_witness :
    ([("Alice", [(0 : ℕ)])] : List (String × List ℕ)) ≠ [] ∧
    eyeMainStep [] true 1 = (some EyeRunExit.noFaces, true) :=
  ⟨c9_empty_gallery.1 true [⟨true, ".jpg", "Alice_1", some [0]⟩] [("Alice", [0])]
      (by decide),
   c9_empty_gallery.2 true⟩
